import Mathlib

/-! ILI9341 display driver and sprite trail erasure.

A shallow embedding of the drawing primitives of `ili9341.c` and of the
trail-erase routine of `player.c`.  Every primitive is a function from its C
arguments to the list of bus events it produces, in program order.

Machine integers are natural numbers (or integers where C computes in `int`);
the conversions that C performs implicitly when a value is stored in a
`uint8_t` or `uint16_t` are written out with `% 256` and `u16`.
-/

namespace Ili9341

/-! ## Bus events -/

/-- The four control lines the driver writes with `HAL_GPIO_WritePin`:
chip select (GPIOC pin 2), data/command select (GPIOD pin 13), reset
(GPIOG pin 14) and backlight (GPIOB pin 0). -/
inductive Pin
  | cs
  | dc
  | rst
  | bl
  deriving DecidableEq, Repr

/-- One observable action of the driver on the bus. -/
inductive Event
  | gpio (pin : Pin) (level : Bool)
  | spi (bytes : List Nat)
  | delay (ms : Nat)
  deriving DecidableEq, Repr

/-- The events of one call, in program order. -/
abbrev Trace := List Event

def ILI9341_CS_LOW : Event := .gpio .cs false
def ILI9341_CS_HIGH : Event := .gpio .cs true
def ILI9341_DC_CMD : Event := .gpio .dc false
def ILI9341_DC_DATA : Event := .gpio .dc true

def ILI9341_CASET : Nat := 0x2A
def ILI9341_RASET : Nat := 0x2B
def ILI9341_RAMWR : Nat := 0x2C

def ILI9341_WIDTH : Nat := 320
def ILI9341_HEIGHT : Nat := 240

/-- Conversion of an `int` value to `uint16_t`. -/
def u16 (i : Int) : Nat := (i % 65536).toNat

/-- Conversion of an unsigned value to `uint8_t`. -/
def u8 (n : Nat) : Nat := n % 256

/-! ## Wire transport -/

/-- Function `ili9341_write_cmd` (ili9341.c, line 69): select, command mode, one
byte, deselect. -/
def ili9341_write_cmd (cmd : Nat) : Trace :=
  [ILI9341_CS_LOW, ILI9341_DC_CMD, .spi [cmd], ILI9341_CS_HIGH]

/-- Function `ili9341_write_data` (ili9341.c, line 82): select, data mode, the
buffer, deselect. -/
def ili9341_write_data (buff : List Nat) : Trace :=
  [ILI9341_CS_LOW, ILI9341_DC_DATA, .spi buff, ILI9341_CS_HIGH]

/-! ## Address window -/

/-- Function `ili9341_set_address_window` (ili9341.c, line 111): column range,
row range, memory write.  Each byte is stored in a `uint8_t`. -/
def ili9341_set_address_window (x0 x1 y0 y1 : Nat) : Trace :=
  ili9341_write_cmd ILI9341_CASET ++
  ili9341_write_data [u8 (x0 >>> 8), u8 (x0 &&& 0xFF), u8 (x1 >>> 8), u8 (x1 &&& 0xFF)] ++
  ili9341_write_cmd ILI9341_RASET ++
  ili9341_write_data [u8 (y0 >>> 8), u8 (y0 &&& 0xFF), u8 (y1 >>> 8), u8 (y1 &&& 0xFF)] ++
  ili9341_write_cmd ILI9341_RAMWR

/-- Reads two bytes as one big-endian 16-bit value. -/
def be16 (hi lo : Nat) : Nat := hi * 256 + lo

/-! ## Drawing primitives -/

/-- Function `ili9341_draw_pixel` (ili9341.c, line 310). -/
def ili9341_draw_pixel (x y color : Nat) : Trace :=
  if x ≥ ILI9341_WIDTH ∨ y ≥ ILI9341_HEIGHT then []
  else
    ili9341_set_address_window x x y y ++
    ili9341_write_data [u8 (color >>> 8), u8 (color &&& 0xFF)]

/-- The width test and assignment of `ili9341_fill_rect` and
`ili9341_draw_image`: `if ((x + w - 1) >= ILI9341_WIDTH) w = ILI9341_WIDTH - x;`
The sum is computed in `int`. -/
def clampW (x w : Nat) : Nat :=
  if (x : Int) + (w : Int) - 1 ≥ (ILI9341_WIDTH : Int) then u16 ((ILI9341_WIDTH : Int) - x) else w

/-- The height test and assignment of the same two functions:
`if ((y + h - 1) >= ILI9341_HEIGHT) h = ILI9341_HEIGHT - y;` -/
def clampH (y h : Nat) : Nat :=
  if (y : Int) + (h : Int) - 1 ≥ (ILI9341_HEIGHT : Int) then u16 ((ILI9341_HEIGHT : Int) - y) else h

/-- The loop of `ili9341_fill_rect`: `n` transmissions of the same buffer. -/
def fill_rect_loop : Nat → List Nat → Trace
  | 0, _ => []
  | n + 1, data => .spi data :: fill_rect_loop n data

/-- Function `ili9341_fill_rect` (ili9341.c, line 381).  After the two clamps
`w ≤ 320` and `h ≤ 240`, so the product `w * h` of the loop bound does not
overflow.  The end coordinates `x + w - 1` and `y + h - 1` are computed in
`int` and passed to `uint16_t` parameters. -/
def ili9341_fill_rect (x w y h color : Nat) : Trace :=
  if x ≥ ILI9341_WIDTH ∨ y ≥ ILI9341_HEIGHT then []
  else
    let w := clampW x w
    let h := clampH y h
    ili9341_set_address_window x (u16 ((x : Int) + w - 1)) y (u16 ((y : Int) + h - 1)) ++
    [ILI9341_CS_LOW, ILI9341_DC_DATA] ++
    fill_rect_loop (w * h) [u8 (color >>> 8), u8 (color &&& 0xFF)] ++
    [ILI9341_CS_HIGH]

/-- The loop of `ili9341_draw_image`: `n` more pixels, the next one read at
index `i` of the image memory `data`. -/
def draw_image_loop (data : Nat → Nat) : Nat → Nat → Trace
  | 0, _ => []
  | n + 1, i => .spi [u8 (data i >>> 8), u8 (data i &&& 0xFF)] :: draw_image_loop data n (i + 1)

/-- Function `ili9341_draw_image` (ili9341.c, line 432); `data i` is the 16-bit
word the pointer `data` holds at index `i`. -/
def ili9341_draw_image (x w y h : Nat) (data : Nat → Nat) : Trace :=
  if x ≥ ILI9341_WIDTH ∨ y ≥ ILI9341_HEIGHT then []
  else
    let w := clampW x w
    let h := clampH y h
    ili9341_set_address_window x (u16 ((x : Int) + w - 1)) y (u16 ((y : Int) + h - 1)) ++
    [ILI9341_CS_LOW, ILI9341_DC_DATA] ++
    draw_image_loop data (w * h) 0 ++
    [ILI9341_CS_HIGH]

/-- A rectangle as the primitives receive it. -/
structure Rect where
  x : Nat
  y : Nat
  w : Nat
  h : Nat
  deriving DecidableEq, Repr

/-- The clamp of `ili9341_fill_rect` and `ili9341_draw_image` on a rectangle
whose origin is on the panel. -/
def clampRect (r : Rect) : Rect :=
  { x := r.x, y := r.y, w := clampW r.x r.w, h := clampH r.y r.h }

/-! ## Text -/

/-- The fields of `FontDef` the driver reads.  `font.h` declares the type;
`data` gives the 16-bit row word stored at an offset from `font.data`. -/
structure FontDef where
  width : Nat
  height : Nat
  data : Int → Nat

/-- The inner loop of `ili9341_write_char`: `n` more columns of the row word
`b`, the next one being column `j`.  `b << j` is computed in 32 bits. -/
def write_char_cols (b color bgcolor : Nat) : Nat → Nat → Trace
  | 0, _ => []
  | n + 1, j =>
    ili9341_write_data
      [ if ((b <<< j) % 4294967296) &&& 0x8000 ≠ 0 then u8 (color >>> 8) else u8 (bgcolor >>> 8),
        if ((b <<< j) % 4294967296) &&& 0x8000 ≠ 0 then u8 (color &&& 0xFF)
        else u8 (bgcolor &&& 0xFF) ] ++
    write_char_cols b color bgcolor n (j + 1)

/-- The outer loop of `ili9341_write_char`: `n` more rows, the next one being
row `i`. -/
def write_char_rows (font : FontDef) (ch color bgcolor : Nat) : Nat → Nat → Trace
  | 0, _ => []
  | n + 1, i =>
    write_char_cols (font.data (((ch : Int) - 32) * font.height + i)) color bgcolor font.width 0 ++
    write_char_rows font ch color bgcolor n (i + 1)

/-- Function `ili9341_write_char` (ili9341.c, line 328); it has no test of
`x` or `y` against the panel size. -/
def ili9341_write_char (x y ch : Nat) (font : FontDef) (color bgcolor : Nat) : Trace :=
  ili9341_set_address_window x (u16 ((x : Int) + font.width - 1)) y
    (u16 ((y : Int) + font.height - 1)) ++
  write_char_rows font ch color bgcolor font.height 0

/-- Function `ili9341_write_string` (ili9341.c, line 353); `str` holds the
character codes the pointer walks over, and the walk stops at a zero byte or at
the end of the list.  `x + font.width` and `y + font.height` are computed in
`int`; the assignments to `x` and `y` store 16 bits. -/
def ili9341_write_string (x y : Nat) (str : List Nat) (font : FontDef)
    (color bgcolor : Nat) : Trace :=
  match str with
  | [] => []
  | c :: rest =>
    if c = 0 then []
    else if (x : Int) + font.width ≥ (ILI9341_WIDTH : Int) then
      if (u16 ((y : Int) + font.height) : Int) + font.height ≥ (ILI9341_HEIGHT : Int) then []
      else if c = 32 then
        ili9341_write_string 0 (u16 ((y : Int) + font.height)) rest font color bgcolor
      else
        ili9341_write_char 0 (u16 ((y : Int) + font.height)) c font color bgcolor ++
        ili9341_write_string (u16 ((0 : Int) + font.width)) (u16 ((y : Int) + font.height))
          rest font color bgcolor
    else
      ili9341_write_char x y c font color bgcolor ++
      ili9341_write_string (u16 ((x : Int) + font.width)) y rest font color bgcolor

/-! ## Player trail -/

/-- The geometry fields of `player_t`; `fill_player_trace` reads no other
field. -/
structure Player where
  x : Nat
  w : Nat
  y : Nat
  h : Nat
  deriving DecidableEq, Repr

def BACKGROUND : Nat := 0x9F5E
def PLAYER_ySTART_POINT : Nat := 30
def PLAYER_yEND_POINT : Nat := 210

/-- The arguments of one call of `ili9341_fill_rect`, in the order of its
parameters. -/
structure FillCall where
  x : Nat
  w : Nat
  y : Nat
  h : Nat
  color : Nat
  deriving DecidableEq, Repr

/-- The bus events of one recorded call. -/
def FillCall.run (c : FillCall) : Trace :=
  ili9341_fill_rect c.x c.w c.y c.h c.color

/-- The calls of `ili9341_fill_rect` that `fill_player_trace` (player.c, line
34) makes, in the branch compiled when `OLD` is not defined.  `y_pos` is an
`int`; each `int` argument is converted to the `uint16_t` parameter it is
passed to. -/
def fill_player_trace_calls (player : Player) (y_pos : Int) : List FillCall :=
  if (player.y : Int) ≥ PLAYER_ySTART_POINT ∧
      (player.y : Int) + player.h ≤ PLAYER_yEND_POINT then
    if y_pos > player.y then
      [⟨player.x, player.w, player.y, u16 (y_pos - player.y), BACKGROUND⟩]
    else if y_pos < player.y then
      [⟨player.x, player.w, u16 (y_pos + player.h),
        u16 (((player.y : Int) + player.h) - (y_pos + player.h)), BACKGROUND⟩]
    else []
  else []

/-- Function `fill_player_trace`: the bus events of its calls, in order. -/
def fill_player_trace (player : Player) (y_pos : Int) : Trace :=
  ((fill_player_trace_calls player y_pos).map FillCall.run).flatten

/-! ## Panel -/

/-- The panel side of the bus: the level of the data/command line, the last
command byte, the address window, the number of pixels received since the
last memory-write command, and the pixels written so far as
`(column, row, colour)`. -/
structure Panel where
  dcData : Bool
  cmd : Nat
  x0 : Nat
  x1 : Nat
  y0 : Nat
  y1 : Nat
  cursor : Nat
  painted : List (Nat × Nat × Nat)
  deriving DecidableEq, Repr

/-- The panel before any traffic. -/
def Panel.init : Panel :=
  { dcData := false, cmd := 0, x0 := 0, x1 := 0, y0 := 0, y1 := 0, cursor := 0, painted := [] }

/-- Modelled from the spec: the panel is external hardware; section 4.2 says
that the column and row address-set commands carry two big-endian 16-bit
fields each and that after the memory-write command the panel accepts pixels
of two bytes in row-major order inside the window.  The `i`-th pixel after the
memory-write command lands at column `x0 + i % width`, row `y0 + i / width`,
where `width = x1 + 1 - x0`. -/
def Panel.step (p : Panel) : Event → Panel
  | .gpio .dc level => { p with dcData := level }
  | .gpio _ _ => p
  | .delay _ => p
  | .spi bytes =>
    if p.dcData then
      if p.cmd = ILI9341_CASET then
        match bytes with
        | [a, b, c, d] => { p with x0 := be16 a b, x1 := be16 c d }
        | _ => p
      else if p.cmd = ILI9341_RASET then
        match bytes with
        | [a, b, c, d] => { p with y0 := be16 a b, y1 := be16 c d }
        | _ => p
      else if p.cmd = ILI9341_RAMWR then
        match bytes with
        | [hi, lo] =>
          { p with
            cursor := p.cursor + 1
            painted := p.painted ++
              [(p.x0 + p.cursor % (p.x1 + 1 - p.x0), p.y0 + p.cursor / (p.x1 + 1 - p.x0),
                be16 hi lo)] }
        | _ => p
      else p
    else
      match bytes with
      | [c] => { p with cmd := c, cursor := if c = ILI9341_RAMWR then 0 else p.cursor }
      | _ => p

/-- The panel after a whole trace. -/
def Panel.run (p : Panel) (t : Trace) : Panel := t.foldl Panel.step p

/-- The address window the panel holds after a trace, as `(x0, x1, y0, y1)`. -/
def panelWindow (t : Trace) : Nat × Nat × Nat × Nat :=
  let p := Panel.init.run t
  (p.x0, p.x1, p.y0, p.y1)

/-- The pixels a trace writes, as `(column, row, colour)`, in order. -/
def paintedPixels (t : Trace) : List (Nat × Nat × Nat) :=
  (Panel.init.run t).painted

/-- The positions a trace writes with the colour `color`. -/
def paintedWith (t : Trace) (color : Nat) : List (Nat × Nat) :=
  ((paintedPixels t).filter (fun q => q.2.2 = color)).map (fun q => (q.1, q.2.1))

/-- Membership of a panel position in a rectangle. -/
def Rect.contains (r : Rect) (px py : Nat) : Prop :=
  r.x ≤ px ∧ px < r.x + r.w ∧ r.y ≤ py ∧ py < r.y + r.h

instance (r : Rect) (px py : Nat) : Decidable (r.contains px py) := by
  unfold Rect.contains
  infer_instance

/-- The rectangle the sprite occupied before the move. -/
def prevRect (player : Player) : Rect :=
  { x := player.x, y := player.y, w := player.w, h := player.h }

/-- The rectangle the sprite occupies at the new row `y_pos`. -/
def newRect (player : Player) (y_pos : Int) : Rect :=
  { x := player.x, y := y_pos.toNat, w := player.w, h := player.h }

/-- The positions `fill_player_trace` writes with the background colour are
exactly those of the previous rectangle that the new rectangle leaves free. -/
def erasesExactlyVacated (player : Player) (y_pos : Int) : Prop :=
  ∀ px py : Nat, (px, py) ∈ paintedWith (fill_player_trace player y_pos) BACKGROUND ↔
    ((prevRect player).contains px py ∧ ¬ (newRect player y_pos).contains px py)

/-- The 16 by 26 font geometry of `Font_16x26`, with blank glyphs. -/
def font16x26 : FontDef := { width := 16, height := 26, data := fun _ => 0 }

/-- A font of one row and one column, with blank glyphs. -/
def font1x1 : FontDef := { width := 1, height := 1, data := fun _ => 0 }

/-! ## Initialisation and orientation -/

def ILI9341_RST_LOW : Event := .gpio .rst false
def ILI9341_RST_HIGH : Event := .gpio .rst true
def ILI9341_BL_ON : Event := .gpio .bl true

def ILI9341_SWRESET : Nat := 0x01
def ILI9341_SLPOUT : Nat := 0x11
def ILI9341_DISPON : Nat := 0x29
def ILI9341_MADCTL : Nat := 0x36
def ILI9341_COLMOD : Nat := 0x3A
def ILI9341_TEON : Nat := 0x35

def MADCTL_MY : Nat := 0x80
def MADCTL_MX : Nat := 0x40
def MADCTL_MV : Nat := 0x20
def MADCTL_BGR : Nat := 0x08

/-- The enumerator `ORIENTATION_PORTRAIT` of `display_orientation`
(display.h, line 11). -/
def ORIENTATION_PORTRAIT : Nat := 0

/-- The enumerator `ORIENTATION_LANDSCAPE` of `display_orientation`
(display.h, line 12). -/
def ORIENTATION_LANDSCAPE : Nat := 1

/-- The macro `LANDSCAPE` of ili9341.h, line 17. -/
def LANDSCAPE : Nat := 0

/-- The macro `PORTRAIT` of ili9341.h, line 18. -/
def PORTRAIT : Nat := 1

/-- Function `ili9341_hw_reset` (ili9341.c, line 94). -/
def ili9341_hw_reset : Trace :=
  [ILI9341_RST_HIGH, .delay 10, ILI9341_RST_LOW, .delay 10, ILI9341_RST_HIGH, .delay 120]

/-- Function `ili9341_init` (ili9341.c, line 139): the command and parameter
bytes in program order. -/
def ili9341_init : Trace :=
  ili9341_write_cmd ILI9341_SWRESET ++ [.delay 150] ++
  ili9341_write_cmd ILI9341_SLPOUT ++ [.delay 150] ++
  ili9341_write_cmd 0xCF ++ ili9341_write_data [0x00, 0x81, 0x30] ++
  ili9341_write_cmd 0xED ++ ili9341_write_data [0x64, 0x03, 0x12, 0x81] ++
  ili9341_write_cmd 0xE8 ++ ili9341_write_data [0x85, 0x10, 0x78] ++
  ili9341_write_cmd 0xCB ++ ili9341_write_data [0x39, 0x2C, 0x00, 0x34, 0x02] ++
  ili9341_write_cmd 0xF7 ++ ili9341_write_data [0x20] ++
  ili9341_write_cmd 0xEA ++ ili9341_write_data [0x00, 0x00] ++
  ili9341_write_cmd 0xC0 ++ ili9341_write_data [0x21] ++
  ili9341_write_cmd 0xC1 ++ ili9341_write_data [0x11] ++
  ili9341_write_cmd 0xC5 ++ ili9341_write_data [0x31, 0x3C] ++
  ili9341_write_cmd 0xC7 ++ ili9341_write_data [0xC0] ++
  ili9341_write_cmd ILI9341_COLMOD ++ ili9341_write_data [0x55] ++
  ili9341_write_cmd 0xB1 ++ ili9341_write_data [0x00, 0x1B] ++
  ili9341_write_cmd 0xF2 ++ ili9341_write_data [0x48] ++
  ili9341_write_cmd 0x26 ++ ili9341_write_data [0x01] ++
  ili9341_write_cmd 0xE0 ++
  ili9341_write_data
    [0x0F, 0x31, 0x2B, 0x0C, 0x0E, 0x08, 0x4E, 0xF1, 0x37, 0x07, 0x10, 0x03, 0x0E, 0x09, 0x00] ++
  ili9341_write_cmd 0xE1 ++
  ili9341_write_data
    [0x00, 0x0E, 0x14, 0x03, 0x11, 0x07, 0x31, 0xC1, 0x48, 0x08, 0x0F, 0x0C, 0x31, 0x36, 0x0F] ++
  ili9341_write_cmd 0x36 ++ ili9341_write_data [0x28] ++
  ili9341_write_cmd ILI9341_TEON ++ ili9341_write_data [0x00] ++
  ili9341_write_cmd ILI9341_DISPON ++ [.delay 150]

/-- Function `ili9341_set_orientation` (ili9341.c, line 401); the argument is
the integer value of the `display_orientation` it receives. -/
def ili9341_set_orientation (orientation : Nat) : Trace :=
  ili9341_write_cmd ILI9341_MADCTL ++
  ili9341_write_data
    [if orientation = ORIENTATION_LANDSCAPE then MADCTL_MV ||| MADCTL_MY ||| MADCTL_BGR
     else MADCTL_MX ||| MADCTL_BGR]

/-- Function `bsp_lcd_init` (ili9341.c, line 293). -/
def bsp_lcd_init : Trace :=
  [ILI9341_CS_HIGH, ILI9341_BL_ON, ILI9341_RST_HIGH] ++
  ili9341_hw_reset ++ ili9341_init ++ ili9341_set_orientation LANDSCAPE

/-- The payloads of the data transfers that follow a Memory-Access-Control
command (`0x36`) in a trace, in order; `dc` is the level of the data/command
line and `cmd` the last command byte before the trace. -/
def madctlScan : Bool → Nat → Trace → List (List Nat)
  | _, _, [] => []
  | _, cmd, .gpio .dc level :: t => madctlScan level cmd t
  | dc, cmd, .gpio .cs _ :: t => madctlScan dc cmd t
  | dc, cmd, .gpio .rst _ :: t => madctlScan dc cmd t
  | dc, cmd, .gpio .bl _ :: t => madctlScan dc cmd t
  | dc, cmd, .delay _ :: t => madctlScan dc cmd t
  | true, cmd, .spi bytes :: t =>
    if cmd = ILI9341_MADCTL then bytes :: madctlScan true cmd t else madctlScan true cmd t
  | false, cmd, .spi bytes :: t =>
    match bytes with
    | [c] => madctlScan false c t
    | _ => madctlScan false cmd t

/-- The Memory-Access-Control payloads of a whole trace. -/
def madctlWrites (t : Trace) : List (List Nat) := madctlScan false 0 t

/-! ## Background -/

/-- The colour of row `i`, column `j` of a glyph as the bit order of the font
table gives it: bit `15 - j` of the row word selects the foreground. -/
def glyphPixel (font : FontDef) (ch color bgcolor i j : Nat) : Nat :=
  if (font.data (((ch - 32) * font.height + i : Nat) : Int)).testBit (15 - j) then color
  else bgcolor

/-- The two bytes of a 16-bit colour, high byte first, in one data
transaction. -/
def pixelTransaction (p : Nat) : Trace := ili9341_write_data [p >>> 8, p &&& 0xFF]

theorem u8_shiftRight_eq {n : Nat} (h : n < 65536) : u8 (n >>> 8) = n / 256 := by
  unfold u8
  rw [Nat.shiftRight_eq_div_pow]
  omega

theorem u8_and_eq (n : Nat) : u8 (n &&& 0xFF) = n % 256 := by
  unfold u8
  have h : n &&& 0xFF = n % 256 := Nat.and_pow_two_sub_one_eq_mod n 8
  rw [h]
  omega

theorem be16_split (n : Nat) : be16 (n / 256) (n % 256) = n := by
  unfold be16
  omega

theorem clampW_le {x : Nat} (w : Nat) (hx : x < 320) : x + clampW x w ≤ 320 := by
  unfold clampW u16 ILI9341_WIDTH
  split <;> omega

theorem clampH_le {y : Nat} (h : Nat) (hy : y < 240) : y + clampH y h ≤ 240 := by
  unfold clampH u16 ILI9341_HEIGHT
  split <;> omega

theorem clampW_eq {x : Nat} (w : Nat) (hx : x < 320) :
    clampW x w = if x + w > 320 then 320 - x else w := by
  unfold clampW u16 ILI9341_WIDTH
  split <;> split <;> omega

theorem clampH_eq {y : Nat} (h : Nat) (hy : y < 240) :
    clampH y h = if y + h > 240 then 240 - y else h := by
  unfold clampH u16 ILI9341_HEIGHT
  split <;> split <;> omega

/-! ## The panel under the pixel loops -/

theorem run_append (p : Panel) (a b : Trace) :
    Panel.run p (a ++ b) = Panel.run (Panel.run p a) b := by
  unfold Panel.run
  exact List.foldl_append _ _ _ _

theorem run_cons (p : Panel) (e : Event) (t : Trace) :
    Panel.run p (e :: t) = Panel.run (p.step e) t := rfl

theorem run_nil (p : Panel) : Panel.run p [] = p := rfl

theorem step_pixel (p : Panel) (hi lo : Nat) (hd : p.dcData = true)
    (hc : p.cmd = ILI9341_RAMWR) :
    p.step (.spi [hi, lo]) =
      { p with
        cursor := p.cursor + 1
        painted := p.painted ++
          [(p.x0 + p.cursor % (p.x1 + 1 - p.x0), p.y0 + p.cursor / (p.x1 + 1 - p.x0),
            be16 hi lo)] } := by
  simp [Panel.step, hd, hc, ILI9341_RAMWR, ILI9341_CASET, ILI9341_RASET]

theorem run_draw_image_loop (data : Nat → Nat) (n : Nat) :
    ∀ (i : Nat) (p : Panel), p.dcData = true → p.cmd = ILI9341_RAMWR →
      Panel.run p (draw_image_loop data n i) =
        { p with
          cursor := p.cursor + n
          painted := p.painted ++ (List.range n).map (fun k =>
            (p.x0 + (p.cursor + k) % (p.x1 + 1 - p.x0),
              p.y0 + (p.cursor + k) / (p.x1 + 1 - p.x0),
              be16 (u8 (data (i + k) >>> 8)) (u8 (data (i + k) &&& 0xFF)))) } := by
  induction n with
  | zero => intro i p _ _; simp [draw_image_loop, run_nil]
  | succ n ih =>
    intro i p hd hc
    rw [draw_image_loop, run_cons, step_pixel p _ _ hd hc, ih (i + 1) _ (by exact hd) (by exact hc)]
    simp only [Panel.mk.injEq, true_and]
    refine ⟨by omega, ?_⟩
    simp only [List.range_succ_eq_map, List.map_cons, List.map_map, List.append_assoc,
      List.singleton_append, Nat.add_zero, List.append_cancel_left_eq, List.cons.injEq, true_and]
    apply List.map_congr_left
    intro k _
    simp only [Function.comp, Nat.succ_eq_add_one]
    rw [show p.cursor + 1 + k = p.cursor + (k + 1) by omega,
      show i + 1 + k = i + (k + 1) by omega]

theorem run_fill_rect_loop (hi lo : Nat) (n : Nat) :
    ∀ (p : Panel), p.dcData = true → p.cmd = ILI9341_RAMWR →
      Panel.run p (fill_rect_loop n [hi, lo]) =
        { p with
          cursor := p.cursor + n
          painted := p.painted ++ (List.range n).map (fun k =>
            (p.x0 + (p.cursor + k) % (p.x1 + 1 - p.x0),
              p.y0 + (p.cursor + k) / (p.x1 + 1 - p.x0), be16 hi lo)) } := by
  induction n with
  | zero => intro p _ _; simp [fill_rect_loop, run_nil]
  | succ n ih =>
    intro p hd hc
    rw [fill_rect_loop, run_cons, step_pixel p _ _ hd hc, ih _ (by exact hd) (by exact hc)]
    simp only [Panel.mk.injEq, true_and]
    refine ⟨by omega, ?_⟩
    simp only [List.range_succ_eq_map, List.map_cons, List.map_map, List.append_assoc,
      List.singleton_append, Nat.add_zero, List.append_cancel_left_eq, List.cons.injEq, true_and]
    apply List.map_congr_left
    intro k _
    simp only [Function.comp, Nat.succ_eq_add_one]
    rw [show p.cursor + 1 + k = p.cursor + (k + 1) by omega]

theorem run_set_address_window (p : Panel) {x0 x1 y0 y1 : Nat}
    (h0 : x0 < 65536) (h1 : x1 < 65536) (h2 : y0 < 65536) (h3 : y1 < 65536) :
    Panel.run p (ili9341_set_address_window x0 x1 y0 y1) =
      { p with
        dcData := false, cmd := ILI9341_RAMWR, x0 := x0, x1 := x1, y0 := y0, y1 := y1,
        cursor := 0 } := by
  simp [ili9341_set_address_window, ili9341_write_cmd, ili9341_write_data, Panel.run,
    Panel.step, ILI9341_CS_LOW, ILI9341_CS_HIGH, ILI9341_DC_CMD, ILI9341_DC_DATA,
    ILI9341_CASET, ILI9341_RASET, ILI9341_RAMWR, u8_shiftRight_eq h0, u8_shiftRight_eq h1,
    u8_shiftRight_eq h2, u8_shiftRight_eq h3, u8_and_eq, be16_split]

theorem u16_lt (i : Int) : u16 i < 65536 := by
  unfold u16
  omega

theorem u16_pred_of_pos {a b : Nat} (hb : 0 < b) (hab : a + b ≤ 65536) :
    u16 ((a : Int) + b - 1) = a + b - 1 := by
  unfold u16
  omega

theorem be16_color {color : Nat} (hc : color < 65536) :
    be16 (u8 (color >>> 8)) (u8 (color &&& 0xFF)) = color := by
  rw [u8_shiftRight_eq hc, u8_and_eq, be16_split]

/-- The state of the panel after `ili9341_fill_rect` with the origin on the
panel: the window of the clamped rectangle and one pixel per loop turn. -/
theorem run_fill_rect (p : Panel) {x y : Nat} (w h color : Nat) (hx : x < 320) (hy : y < 240) :
    Panel.run p (ili9341_fill_rect x w y h color) =
      { dcData := true, cmd := ILI9341_RAMWR, x0 := x,
        x1 := u16 ((x : Int) + clampW x w - 1), y0 := y,
        y1 := u16 ((y : Int) + clampH y h - 1), cursor := clampW x w * clampH y h,
        painted := p.painted ++ (List.range (clampW x w * clampH y h)).map (fun k =>
          (x + k % clampW x w, y + k / clampW x w,
            be16 (u8 (color >>> 8)) (u8 (color &&& 0xFF)))) } := by
  have hx16 : x < 65536 := by omega
  have hy16 : y < 65536 := by omega
  have hcond : ¬ (x ≥ ILI9341_WIDTH ∨ y ≥ ILI9341_HEIGHT) := by
    unfold ILI9341_WIDTH ILI9341_HEIGHT
    omega
  unfold ili9341_fill_rect
  rw [if_neg hcond]
  simp only [run_append, run_set_address_window _ hx16 (u16_lt _) hy16 (u16_lt _)]
  simp only [run_cons, run_nil, Panel.step, ILI9341_CS_LOW, ILI9341_DC_DATA, ILI9341_CS_HIGH]
  rw [run_fill_rect_loop _ _ _ _ rfl rfl]
  simp only [Panel.step, Panel.mk.injEq, true_and, Nat.zero_add, List.append_cancel_left_eq]
  rcases Nat.eq_zero_or_pos (clampW x w) with h0 | hpos
  · simp [h0]
  · have hle := clampW_le w hx
    rw [u16_pred_of_pos hpos (by omega)]
    have : x + clampW x w - 1 + 1 - x = clampW x w := by omega
    rw [this]

/-- The state of the panel after `ili9341_draw_image` with the origin on the
panel. -/
theorem run_draw_image (p : Panel) {x y : Nat} (w h : Nat) (data : Nat → Nat)
    (hx : x < 320) (hy : y < 240) :
    Panel.run p (ili9341_draw_image x w y h data) =
      { dcData := true, cmd := ILI9341_RAMWR, x0 := x,
        x1 := u16 ((x : Int) + clampW x w - 1), y0 := y,
        y1 := u16 ((y : Int) + clampH y h - 1), cursor := clampW x w * clampH y h,
        painted := p.painted ++ (List.range (clampW x w * clampH y h)).map (fun k =>
          (x + k % clampW x w, y + k / clampW x w,
            be16 (u8 (data k >>> 8)) (u8 (data k &&& 0xFF)))) } := by
  have hx16 : x < 65536 := by omega
  have hy16 : y < 65536 := by omega
  have hcond : ¬ (x ≥ ILI9341_WIDTH ∨ y ≥ ILI9341_HEIGHT) := by
    unfold ILI9341_WIDTH ILI9341_HEIGHT
    omega
  unfold ili9341_draw_image
  rw [if_neg hcond]
  simp only [run_append, run_set_address_window _ hx16 (u16_lt _) hy16 (u16_lt _)]
  simp only [run_cons, run_nil, Panel.step, ILI9341_CS_LOW, ILI9341_DC_DATA, ILI9341_CS_HIGH]
  rw [run_draw_image_loop _ _ _ _ rfl rfl]
  simp only [Panel.step, Panel.mk.injEq, true_and, Nat.zero_add, List.append_cancel_left_eq]
  rcases Nat.eq_zero_or_pos (clampW x w) with h0 | hpos
  · simp [h0]
  · have hle := clampW_le w hx
    rw [u16_pred_of_pos hpos (by omega)]
    have : x + clampW x w - 1 + 1 - x = clampW x w := by omega
    rw [this]

theorem fill_rect_loop_eq_replicate (n : Nat) (d : List Nat) :
    fill_rect_loop n d = List.replicate n (Event.spi d) := by
  induction n with
  | zero => rfl
  | succ n ih => rw [fill_rect_loop, ih, List.replicate_succ]

theorem draw_image_loop_eq_map (data : Nat → Nat) (n : Nat) :
    ∀ i, draw_image_loop data n i =
      (List.range n).map (fun k => Event.spi [u8 (data (i + k) >>> 8), u8 (data (i + k) &&& 0xFF)]) := by
  induction n with
  | zero => intro i; rfl
  | succ n ih =>
    intro i
    rw [draw_image_loop, ih (i + 1), List.range_succ_eq_map, List.map_cons, List.map_map]
    simp only [Nat.add_zero, List.cons.injEq, true_and]
    apply List.map_congr_left
    intro k _
    simp only [Function.comp, Nat.succ_eq_add_one]
    rw [show i + 1 + k = i + (k + 1) by omega]

theorem u8_shiftRight_id {n : Nat} (h : n < 65536) : u8 (n >>> 8) = n >>> 8 := by
  unfold u8
  rw [Nat.shiftRight_eq_div_pow]
  omega

theorem u8_and_id (n : Nat) : u8 (n &&& 0xFF) = n &&& 0xFF := by
  unfold u8
  have h : n &&& 0xFF = n % 256 := Nat.and_pow_two_sub_one_eq_mod n 8
  rw [h]
  omega

theorem be16_bytes {n : Nat} (h : n < 65536) : be16 (n >>> 8) (n &&& 0xFF) = n := by
  rw [← u8_shiftRight_id h, ← u8_and_id, be16_color h]

/-! ## Clamping and the address window -/

/-- The body of `ili9341_fill_rect` past the off-panel test. -/
theorem fill_rect_on_panel {x y : Nat} (w h color : Nat) (hx : x < 320) (hy : y < 240) :
    ili9341_fill_rect x w y h color =
      ili9341_set_address_window x (u16 ((x : Int) + clampW x w - 1)) y
        (u16 ((y : Int) + clampH y h - 1)) ++
      [ILI9341_CS_LOW, ILI9341_DC_DATA] ++
      fill_rect_loop (clampW x w * clampH y h) [u8 (color >>> 8), u8 (color &&& 0xFF)] ++
      [ILI9341_CS_HIGH] := by
  have hcond : ¬ (x ≥ ILI9341_WIDTH ∨ y ≥ ILI9341_HEIGHT) := by
    unfold ILI9341_WIDTH ILI9341_HEIGHT
    omega
  unfold ili9341_fill_rect
  rw [if_neg hcond]

/-- The body of `ili9341_draw_image` past the off-panel test. -/
theorem draw_image_on_panel {x y : Nat} (w h : Nat) (data : Nat → Nat)
    (hx : x < 320) (hy : y < 240) :
    ili9341_draw_image x w y h data =
      ili9341_set_address_window x (u16 ((x : Int) + clampW x w - 1)) y
        (u16 ((y : Int) + clampH y h - 1)) ++
      [ILI9341_CS_LOW, ILI9341_DC_DATA] ++
      draw_image_loop data (clampW x w * clampH y h) 0 ++
      [ILI9341_CS_HIGH] := by
  have hcond : ¬ (x ≥ ILI9341_WIDTH ∨ y ≥ ILI9341_HEIGHT) := by
    unfold ILI9341_WIDTH ILI9341_HEIGHT
    omega
  unfold ili9341_draw_image
  rw [if_neg hcond]

/-- The end coordinate of a clamped extent that is not empty at the origin. -/
theorem u16_end_exact {a n lim : Nat} (hle : a + n ≤ lim) (hlim : lim ≤ 65536)
    (hpos : 0 < a + n) : u16 ((a : Int) + n - 1) = a + n - 1 := by
  unfold u16
  omega

/-- C1: with the origin on the panel (`x < 320`, `y < 240`), `ili9341_fill_rect`
and `ili9341_draw_image` work with the clamped size `w' = 320 - x` when
`x + w > 320` (else `w`) and `h' = 240 - y` when `y + h > 240` (else `h`):
their traces are the window setup for `(x, x + w' - 1, y, y + h' - 1)` followed
by `w' * h'` pixels, and the window the panel holds afterwards is that one.
The end coordinates are the 16-bit values the code passes; they are the plain
numbers `x + w' - 1` and `y + h' - 1` unless `x = 0 = w` or `y = 0 = h`. -/
theorem fill_rect_draw_image_clamped_window (x w y h color : Nat) (data : Nat → Nat)
    (w' h' : Nat) (hx : x < 320) (hy : y < 240)
    (hw' : w' = if x + w > 320 then 320 - x else w)
    (hh' : h' = if y + h > 240 then 240 - y else h) :
    clampW x w = w' ∧ clampH y h = h' ∧
    ili9341_fill_rect x w y h color =
        ili9341_set_address_window x (u16 ((x : Int) + w' - 1)) y (u16 ((y : Int) + h' - 1)) ++
        [ILI9341_CS_LOW, ILI9341_DC_DATA] ++
        fill_rect_loop (w' * h') [u8 (color >>> 8), u8 (color &&& 0xFF)] ++
        [ILI9341_CS_HIGH] ∧
    ili9341_draw_image x w y h data =
        ili9341_set_address_window x (u16 ((x : Int) + w' - 1)) y (u16 ((y : Int) + h' - 1)) ++
        [ILI9341_CS_LOW, ILI9341_DC_DATA] ++
        draw_image_loop data (w' * h') 0 ++
        [ILI9341_CS_HIGH] ∧
    panelWindow (ili9341_fill_rect x w y h color) =
        (x, u16 ((x : Int) + w' - 1), y, u16 ((y : Int) + h' - 1)) ∧
    panelWindow (ili9341_draw_image x w y h data) =
        (x, u16 ((x : Int) + w' - 1), y, u16 ((y : Int) + h' - 1)) ∧
    (0 < x + w → u16 ((x : Int) + w' - 1) = x + w' - 1) ∧
    (0 < y + h → u16 ((y : Int) + h' - 1) = y + h' - 1) := by
  have hw : clampW x w = w' := by rw [hw']; exact clampW_eq w hx
  have hh : clampH y h = h' := by rw [hh']; exact clampH_eq h hy
  refine ⟨hw, hh, ?_, ?_, ?_, ?_, ?_, ?_⟩
  · rw [fill_rect_on_panel w h color hx hy, hw, hh]
  · rw [draw_image_on_panel w h data hx hy, hw, hh]
  · unfold panelWindow
    simp only [run_fill_rect _ w h color hx hy, hw, hh]
  · unfold panelWindow
    simp only [run_draw_image _ w h data hx hy, hw, hh]
  · intro hpos
    have hle : x + w' ≤ 320 := hw ▸ clampW_le w hx
    have hw0 : 0 < x + w' := by
      rw [hw']
      split <;> omega
    exact u16_end_exact hle (by decide) hw0
  · intro hpos
    have hle : y + h' ≤ 240 := hh ▸ clampH_le h hy
    have hh0 : 0 < y + h' := by
      rw [hh']
      split <;> omega
    exact u16_end_exact hle (by decide) hh0

/-- C1 at `x = 300`, `w = 50`, `y = 200`, `h = 100`: the window is
`(300, 319, 200, 239)`. -/
theorem fill_rect_draw_image_clamped_window_witness :
    (300 < 320 ∧ 200 < 240) ∧
    panelWindow (ili9341_fill_rect 300 50 200 100 7) = (300, 319, 200, 239) ∧
    panelWindow (ili9341_draw_image 300 50 200 100 (fun i => i)) = (300, 319, 200, 239) := by
  have key := fill_rect_draw_image_clamped_window 300 50 200 100 7 (fun i => i) 20 40
    (by decide) (by decide) (by decide) (by decide)
  refine ⟨by decide, ?_, ?_⟩
  · rw [key.2.2.2.2.1]; decide
  · rw [key.2.2.2.2.2.1]; decide

/-- C2: a call of `ili9341_draw_pixel`, `ili9341_fill_rect` or
`ili9341_draw_image` whose origin is off the panel (`x ≥ 320` or `y ≥ 240`)
produces the empty trace: no chip-select or data/command write and no
transfer. -/
theorem off_panel_no_op (x w y h color : Nat) (data : Nat → Nat)
    (hoff : x ≥ 320 ∨ y ≥ 240) :
    ili9341_draw_pixel x y color = [] ∧
    ili9341_fill_rect x w y h color = [] ∧
    ili9341_draw_image x w y h data = [] := by
  have hcond : x ≥ ILI9341_WIDTH ∨ y ≥ ILI9341_HEIGHT := hoff
  refine ⟨?_, ?_, ?_⟩
  · unfold ili9341_draw_pixel
    rw [if_pos hcond]
  · unfold ili9341_fill_rect
    rw [if_pos hcond]
  · unfold ili9341_draw_image
    rw [if_pos hcond]

/-- C2 at the first column right of the panel. -/
theorem off_panel_no_op_witness :
    (320 ≥ 320 ∨ 0 ≥ 240) ∧
    ili9341_draw_pixel 320 0 0xF800 = [] ∧
    ili9341_fill_rect 320 10 0 10 0xF800 = [] ∧
    ili9341_draw_image 320 10 0 10 (fun i => i) = [] :=
  ⟨by decide, off_panel_no_op 320 10 0 10 0xF800 (fun i => i) (by decide)⟩

/-- C3: with the origin on the panel and both clamped sizes `w'`, `h'`
positive, `ili9341_fill_rect` and `ili9341_draw_image` emit one address-window
setup for `(x, x + w' - 1, y, y + h' - 1)` and then, inside one chip-select
bracket, exactly `w' * h'` two-byte transfers: `[color >> 8, color & 0xFF]`
each time in `fill_rect`, `[data[i] >> 8, data[i] & 0xFF]` for
`i = 0 .. w' * h' - 1` in `draw_image`. -/
theorem window_then_stream (x w y h color : Nat) (data : Nat → Nat)
    (w' h' : Nat) (hx : x < 320) (hy : y < 240)
    (hw' : w' = if x + w > 320 then 320 - x else w)
    (hh' : h' = if y + h > 240 then 240 - y else h)
    (hw : 0 < w') (hh : 0 < h')
    (hc : color < 65536) (hd : ∀ i, data i < 65536) :
    ili9341_fill_rect x w y h color =
        ili9341_set_address_window x (x + w' - 1) y (y + h' - 1) ++
        [Event.gpio Pin.cs false, Event.gpio Pin.dc true] ++
        List.replicate (w' * h') (Event.spi [color >>> 8, color &&& 0xFF]) ++
        [Event.gpio Pin.cs true] ∧
    ili9341_draw_image x w y h data =
        ili9341_set_address_window x (x + w' - 1) y (y + h' - 1) ++
        [Event.gpio Pin.cs false, Event.gpio Pin.dc true] ++
        (List.range (w' * h')).map (fun i => Event.spi [data i >>> 8, data i &&& 0xFF]) ++
        [Event.gpio Pin.cs true] ∧
    (List.replicate (w' * h') (Event.spi [color >>> 8, color &&& 0xFF])).length = w' * h' ∧
    ((List.range (w' * h')).map (fun i => Event.spi [data i >>> 8, data i &&& 0xFF])).length =
      w' * h' := by
  have hcw : clampW x w = w' := by rw [hw']; exact clampW_eq w hx
  have hch : clampH y h = h' := by rw [hh']; exact clampH_eq h hy
  have hlw : x + w' ≤ 320 := hcw ▸ clampW_le w hx
  have hlh : y + h' ≤ 240 := hch ▸ clampH_le h hy
  have hx1 : u16 ((x : Int) + w' - 1) = x + w' - 1 :=
    u16_end_exact hlw (by decide) (Nat.lt_of_lt_of_le hw (Nat.le_add_left _ _))
  have hy1 : u16 ((y : Int) + h' - 1) = y + h' - 1 :=
    u16_end_exact hlh (by decide) (Nat.lt_of_lt_of_le hh (Nat.le_add_left _ _))
  refine ⟨?_, ?_, by simp, by simp⟩
  · rw [fill_rect_on_panel w h color hx hy, hcw, hch, hx1, hy1, fill_rect_loop_eq_replicate,
      u8_shiftRight_id hc, u8_and_id]
    rfl
  · rw [draw_image_on_panel w h data hx hy, hcw, hch, hx1, hy1, draw_image_loop_eq_map]
    simp only [Nat.zero_add, u8_and_id, u8_shiftRight_id (hd _)]
    rfl

/-- C3 for a rectangle of 2 by 2 pixels cut from a request of 50 by 100 at
`(318, 238)`. -/
theorem window_then_stream_witness :
    ili9341_fill_rect 318 50 238 100 0x9F5E =
        ili9341_set_address_window 318 319 238 239 ++
        [Event.gpio Pin.cs false, Event.gpio Pin.dc true] ++
        List.replicate 4 (Event.spi [0x9F, 0x5E]) ++
        [Event.gpio Pin.cs true] ∧
    ili9341_draw_image 318 50 238 100 (fun i => (256 * i + 7) % 65536) =
        ili9341_set_address_window 318 319 238 239 ++
        [Event.gpio Pin.cs false, Event.gpio Pin.dc true] ++
        [Event.spi [0, 7], Event.spi [1, 7], Event.spi [2, 7], Event.spi [3, 7]] ++
        [Event.gpio Pin.cs true] := by
  have hd : ∀ i, (fun i => (256 * i + 7) % 65536) i < 65536 := fun i => Nat.mod_lt _ (by decide)
  have key := window_then_stream 318 50 238 100 0x9F5E (fun i => (256 * i + 7) % 65536) 2 2
    (by decide) (by decide) (by decide) (by decide) (by decide) (by decide) (by decide) hd
  exact ⟨key.1, key.2.1⟩

/-- C4: for 16-bit coordinates `ili9341_set_address_window` emits command
`0x2A`, data `[x0 >> 8, x0 & 0xFF, x1 >> 8, x1 & 0xFF]`, command `0x2B`, data
`[y0 >> 8, y0 & 0xFF, y1 >> 8, y1 & 0xFF]` and command `0x2C` without payload,
each transfer in its own chip-select bracket; every byte pair read back as a
big-endian 16-bit value is the coordinate it came from. -/
theorem set_address_window_trace (x0 x1 y0 y1 : Nat)
    (h0 : x0 < 65536) (h1 : x1 < 65536) (h2 : y0 < 65536) (h3 : y1 < 65536) :
    ili9341_set_address_window x0 x1 y0 y1 =
      [ Event.gpio Pin.cs false, Event.gpio Pin.dc false, Event.spi [0x2A], Event.gpio Pin.cs true,
        Event.gpio Pin.cs false, Event.gpio Pin.dc true,
        Event.spi [x0 >>> 8, x0 &&& 0xFF, x1 >>> 8, x1 &&& 0xFF], Event.gpio Pin.cs true,
        Event.gpio Pin.cs false, Event.gpio Pin.dc false, Event.spi [0x2B], Event.gpio Pin.cs true,
        Event.gpio Pin.cs false, Event.gpio Pin.dc true,
        Event.spi [y0 >>> 8, y0 &&& 0xFF, y1 >>> 8, y1 &&& 0xFF], Event.gpio Pin.cs true,
        Event.gpio Pin.cs false, Event.gpio Pin.dc false, Event.spi [0x2C], Event.gpio Pin.cs true ] ∧
    be16 (x0 >>> 8) (x0 &&& 0xFF) = x0 ∧ be16 (x1 >>> 8) (x1 &&& 0xFF) = x1 ∧
    be16 (y0 >>> 8) (y0 &&& 0xFF) = y0 ∧ be16 (y1 >>> 8) (y1 &&& 0xFF) = y1 := by
  refine ⟨?_, be16_bytes h0, be16_bytes h1, be16_bytes h2, be16_bytes h3⟩
  unfold ili9341_set_address_window
  rw [u8_shiftRight_id h0, u8_shiftRight_id h1, u8_shiftRight_id h2, u8_shiftRight_id h3]
  simp only [u8_and_id]
  rfl

/-- C4 for the window `(300, 319, 200, 239)`. -/
theorem set_address_window_trace_witness :
    ili9341_set_address_window 300 319 200 239 =
      [ Event.gpio Pin.cs false, Event.gpio Pin.dc false, Event.spi [0x2A], Event.gpio Pin.cs true,
        Event.gpio Pin.cs false, Event.gpio Pin.dc true,
        Event.spi [1, 44, 1, 63], Event.gpio Pin.cs true,
        Event.gpio Pin.cs false, Event.gpio Pin.dc false, Event.spi [0x2B], Event.gpio Pin.cs true,
        Event.gpio Pin.cs false, Event.gpio Pin.dc true,
        Event.spi [0, 200, 0, 239], Event.gpio Pin.cs true,
        Event.gpio Pin.cs false, Event.gpio Pin.dc false, Event.spi [0x2C], Event.gpio Pin.cs true ] ∧
    be16 1 44 = 300 ∧ be16 1 63 = 319 ∧ be16 0 200 = 200 ∧ be16 0 239 = 239 :=
  set_address_window_trace 300 319 200 239 (by decide) (by decide) (by decide) (by decide)

/-! ## Pixels written by a fill -/

theorem mem_window_pixels (x y w h c px py q : Nat) :
    (px, py, q) ∈ (List.range (w * h)).map (fun k => (x + k % w, y + k / w, c)) ↔
      x ≤ px ∧ px < x + w ∧ y ≤ py ∧ py < y + h ∧ q = c := by
  simp only [List.mem_map, List.mem_range, Prod.mk.injEq]
  constructor
  · rintro ⟨k, hk, h1, h2, h3⟩
    have hw : 0 < w := by
      rcases Nat.eq_zero_or_pos w with hz | hz
      · rw [hz] at hk; omega
      · exact hz
    have hm : k % w < w := Nat.mod_lt _ hw
    have hd : k / w < h := (Nat.div_lt_iff_lt_mul hw).mpr (by rw [Nat.mul_comm] at hk; exact hk)
    generalize k % w = m at h1 hm
    generalize k / w = d at h2 hd
    omega
  · rintro ⟨h1, h2, h3, h4, h5⟩
    have hw : 0 < w := by omega
    refine ⟨(py - y) * w + (px - x), ?_, ?_, ?_, h5.symm⟩
    · have : (py - y) + 1 ≤ h := by omega
      calc (py - y) * w + (px - x) < (py - y) * w + w := by omega
        _ = ((py - y) + 1) * w := by ring
        _ ≤ h * w := Nat.mul_le_mul_right w this
        _ = w * h := Nat.mul_comm _ _
    · rw [Nat.add_comm ((py - y) * w), Nat.add_mul_mod_self_right, Nat.mod_eq_of_lt (by omega)]
      omega
    · rw [Nat.add_comm ((py - y) * w), Nat.add_mul_div_right _ _ hw,
        Nat.div_eq_of_lt (by omega)]
      omega

theorem mem_paintedWith (t : Trace) (c px py : Nat) :
    (px, py) ∈ paintedWith t c ↔ (px, py, c) ∈ paintedPixels t := by
  unfold paintedWith
  simp only [List.mem_map, List.mem_filter, decide_eq_true_eq, Prod.mk.injEq]
  constructor
  · rintro ⟨⟨a, b, q⟩, ⟨hmem, hq⟩, ha, hb⟩
    simp only at hq ha hb
    subst hq ha hb
    exact hmem
  · intro hmem
    exact ⟨(px, py, c), ⟨hmem, rfl⟩, rfl, rfl⟩

/-- The positions a fill writes: the clamped rectangle when the origin is on
the panel. -/
theorem mem_paintedWith_fill_rect {x y : Nat} (w h : Nat) {color : Nat} (px py : Nat)
    (hx : x < 320) (hy : y < 240) (hc : color < 65536) :
    (px, py) ∈ paintedWith (ili9341_fill_rect x w y h color) color ↔
      x ≤ px ∧ px < x + clampW x w ∧ y ≤ py ∧ py < y + clampH y h := by
  rw [mem_paintedWith]
  unfold paintedPixels
  rw [run_fill_rect _ w h color hx hy, be16_color hc]
  simp only [Panel.init, List.nil_append]
  rw [mem_window_pixels]
  simp

theorem paintedWith_nil (c : Nat) : paintedWith [] c = [] := rfl

/-! ## Trail erasure -/

theorem fill_player_trace_single (player : Player) (y_pos : Int) (c : FillCall)
    (h : fill_player_trace_calls player y_pos = [c]) :
    fill_player_trace player y_pos = ili9341_fill_rect c.x c.w c.y c.h c.color := by
  unfold fill_player_trace
  rw [h]
  simp [FillCall.run]

/-- C5: inside the travel band (`player.y ≥ 30`, `player.y + player.h ≤ 210`)
and for a new row `y_pos > player.y`, `fill_player_trace` makes exactly one
call of `ili9341_fill_rect`, with `x = player.x`, `y = player.y`,
`w = player.w`, colour `BACKGROUND` and the height `y_pos - player.y` as the
16-bit parameter receives it (the number itself whenever it is below 65536);
for the previous rectangle `{x:10, y:50, w:20, h:20}` and new row 60 the call
is for `{x:10, y:50, w:20, h:10}`. -/
theorem fill_player_trace_down (player : Player) (y_pos : Int)
    (hlo : player.y ≥ 30) (hhi : player.y + player.h ≤ 210) (hdown : y_pos > player.y) :
    (∃ c : FillCall, fill_player_trace_calls player y_pos = [c] ∧
      fill_player_trace player y_pos = ili9341_fill_rect c.x c.w c.y c.h c.color ∧
      c.x = player.x ∧ c.y = player.y ∧ c.w = player.w ∧ c.color = BACKGROUND ∧
      (c.h : Int) = (y_pos - player.y) % 65536 ∧
      (y_pos - player.y < 65536 → (c.h : Int) = y_pos - player.y)) ∧
    fill_player_trace_calls { x := 10, y := 50, w := 20, h := 20 } 60 =
      [{ x := 10, y := 50, w := 20, h := 10, color := 0x9F5E }] := by
  refine ⟨?_, by decide⟩
  have hcalls : fill_player_trace_calls player y_pos =
      [⟨player.x, player.w, player.y, u16 (y_pos - player.y), BACKGROUND⟩] := by
    unfold fill_player_trace_calls PLAYER_ySTART_POINT PLAYER_yEND_POINT
    rw [if_pos (by omega), if_pos hdown]
  refine ⟨_, hcalls, fill_player_trace_single _ _ _ hcalls, rfl, rfl, rfl, rfl, ?_, ?_⟩
  · simp only [u16]
    omega
  · intro hsmall
    simp only [u16]
    omega

/-- C5 for a sprite at row 50 that moves to row 60. -/
theorem fill_player_trace_down_witness :
    ∃ c : FillCall,
      fill_player_trace_calls { x := 10, y := 50, w := 20, h := 20 } 60 = [c] ∧
      fill_player_trace { x := 10, y := 50, w := 20, h := 20 } 60 =
        ili9341_fill_rect c.x c.w c.y c.h c.color ∧
      c.x = 10 ∧ c.y = 50 ∧ c.w = 20 ∧ c.color = BACKGROUND ∧ (c.h : Int) = 10 := by
  obtain ⟨c, h1, h2, h3, h4, h5, h6, _, h8⟩ :=
    (fill_player_trace_down { x := 10, y := 50, w := 20, h := 20 } 60
      (by decide) (by decide) (by decide)).1
  exact ⟨c, h1, h2, h3, h4, h5, h6, h8 (by decide)⟩

/-- C6: inside the travel band and for a new row `0 ≤ y_pos < player.y`,
`fill_player_trace` makes exactly one call of `ili9341_fill_rect`, with
`x = player.x`, `y = y_pos + player.h`, `w = player.w`,
`h = (player.y + player.h) - (y_pos + player.h)` and colour `BACKGROUND`; for
the previous rectangle `{x:10, y:60, w:20, h:20}` and new row 50 the call is
for `{x:10, y:70, w:20, h:10}`. -/
theorem fill_player_trace_up (player : Player) (y_pos : Int)
    (hlo : player.y ≥ 30) (hhi : player.y + player.h ≤ 210)
    (h0 : 0 ≤ y_pos) (hup : y_pos < player.y) :
    (∃ c : FillCall, fill_player_trace_calls player y_pos = [c] ∧
      fill_player_trace player y_pos = ili9341_fill_rect c.x c.w c.y c.h c.color ∧
      c.x = player.x ∧ (c.y : Int) = y_pos + player.h ∧ c.w = player.w ∧
      (c.h : Int) = ((player.y : Int) + player.h) - (y_pos + player.h) ∧
      c.color = BACKGROUND) ∧
    fill_player_trace_calls { x := 10, y := 60, w := 20, h := 20 } 50 =
      [{ x := 10, y := 70, w := 20, h := 10, color := 0x9F5E }] := by
  refine ⟨?_, by decide⟩
  have hcalls : fill_player_trace_calls player y_pos =
      [⟨player.x, player.w, u16 (y_pos + player.h),
        u16 (((player.y : Int) + player.h) - (y_pos + player.h)), BACKGROUND⟩] := by
    unfold fill_player_trace_calls PLAYER_ySTART_POINT PLAYER_yEND_POINT
    rw [if_pos (by omega), if_neg (by omega), if_pos hup]
  refine ⟨_, hcalls, fill_player_trace_single _ _ _ hcalls, rfl, ?_, rfl, ?_, rfl⟩
  · simp only [u16]
    omega
  · simp only [u16]
    omega

/-- C6 for a sprite at row 60 that moves to row 50. -/
theorem fill_player_trace_up_witness :
    ∃ c : FillCall,
      fill_player_trace_calls { x := 10, y := 60, w := 20, h := 20 } 50 = [c] ∧
      fill_player_trace { x := 10, y := 60, w := 20, h := 20 } 50 =
        ili9341_fill_rect c.x c.w c.y c.h c.color ∧
      c.x = 10 ∧ (c.y : Int) = 50 + 20 ∧ c.w = 20 ∧ (c.h : Int) = (60 + 20) - (50 + 20) ∧
      c.color = BACKGROUND :=
  (fill_player_trace_up { x := 10, y := 60, w := 20, h := 20 } 50
    (by decide) (by decide) (by decide) (by decide)).1

/-- C8: for a rectangle whose origin is on the panel the clamp of
`ili9341_fill_rect` and `ili9341_draw_image` is idempotent, and the clamped
rectangle ends inside the panel: `x + w ≤ 320` and `y + h ≤ 240`. -/
theorem clampRect_idempotent (r : Rect) (hx : r.x < 320) (hy : r.y < 240) :
    clampRect (clampRect r) = clampRect r ∧
    (clampRect r).x + (clampRect r).w ≤ 320 ∧
    (clampRect r).y + (clampRect r).h ≤ 240 := by
  have hw := clampW_le r.w hx
  have hh := clampH_le r.h hy
  refine ⟨?_, hw, hh⟩
  have e1 : clampW r.x (clampW r.x r.w) = clampW r.x r.w := by
    rw [clampW_eq (clampW r.x r.w) hx, if_neg (by omega)]
  have e2 : clampH r.y (clampH r.y r.h) = clampH r.y r.h := by
    rw [clampH_eq (clampH r.y r.h) hy, if_neg (by omega)]
  simp only [clampRect, e1, e2]

/-- C8 for a rectangle that overhangs both far edges. -/
theorem clampRect_idempotent_witness :
    clampRect { x := 300, y := 200, w := 50, h := 100 } =
      { x := 300, y := 200, w := 20, h := 40 } ∧
    clampRect (clampRect { x := 300, y := 200, w := 50, h := 100 }) =
      clampRect { x := 300, y := 200, w := 50, h := 100 } :=
  ⟨by decide, (clampRect_idempotent { x := 300, y := 200, w := 50, h := 100 }
    (by decide) (by decide)).1⟩

/-- The positions a background fill writes when the requested rectangle ends
inside the panel: the rectangle itself. -/
theorem mem_paintedWith_fill_inside {x y w h : Nat} (px py : Nat)
    (hx : x + w ≤ 320) (hy : y + h ≤ 240) :
    (px, py) ∈ paintedWith (ili9341_fill_rect x w y h BACKGROUND) BACKGROUND ↔
      x ≤ px ∧ px < x + w ∧ y ≤ py ∧ py < y + h := by
  by_cases hin : x < 320 ∧ y < 240
  · rw [mem_paintedWith_fill_rect w h px py hin.1 hin.2 (by decide),
      clampW_eq w hin.1, clampH_eq h hin.2, if_neg (by omega), if_neg (by omega)]
  · have hoff : x ≥ ILI9341_WIDTH ∨ y ≥ ILI9341_HEIGHT := by
      unfold ILI9341_WIDTH ILI9341_HEIGHT
      omega
    unfold ili9341_fill_rect
    rw [if_pos hoff, paintedWith_nil]
    simp only [List.not_mem_nil, false_iff]
    omega

/-- The positions `fill_player_trace` writes for a sprite inside the travel
band that stays on the panel: the rows between the old and the new top edge
on the way down, the rows between the new and the old bottom edge on the way
up. -/
theorem mem_paintedWith_fill_player_trace (player : Player) (n px py : Nat)
    (hlo : player.y ≥ 30) (hhi : player.y + player.h ≤ 210)
    (hx : player.x + player.w ≤ 320) (h1 : n + player.h ≤ 240) :
    (px, py) ∈ paintedWith (fill_player_trace player (n : Int)) BACKGROUND ↔
      player.x ≤ px ∧ px < player.x + player.w ∧
      ((player.y ≤ py ∧ py < n) ∨ (n + player.h ≤ py ∧ py < player.y + player.h)) := by
  rcases Nat.lt_trichotomy n player.y with hlt | heq | hgt
  · have hcalls : fill_player_trace_calls player (n : Int) =
        [⟨player.x, player.w, n + player.h, player.y - n, BACKGROUND⟩] := by
      unfold fill_player_trace_calls PLAYER_ySTART_POINT PLAYER_yEND_POINT
      rw [if_pos (by omega), if_neg (by omega), if_pos (by omega)]
      have e1 : u16 ((n : Int) + player.h) = n + player.h := by unfold u16; omega
      have e2 : u16 (((player.y : Int) + player.h) - ((n : Int) + player.h)) = player.y - n := by
        unfold u16; omega
      rw [e1, e2]
    rw [fill_player_trace_single _ _ _ hcalls]
    simp only
    rw [mem_paintedWith_fill_inside px py hx (by omega)]
    omega
  · have hcalls : fill_player_trace_calls player (n : Int) = [] := by
      unfold fill_player_trace_calls PLAYER_ySTART_POINT PLAYER_yEND_POINT
      rw [if_pos (by omega), if_neg (by omega), if_neg (by omega)]
    unfold fill_player_trace
    rw [hcalls]
    simp only [List.map_nil, List.flatten_nil, paintedWith_nil, List.not_mem_nil, false_iff]
    omega
  · have hcalls : fill_player_trace_calls player (n : Int) =
        [⟨player.x, player.w, player.y, n - player.y, BACKGROUND⟩] := by
      unfold fill_player_trace_calls PLAYER_ySTART_POINT PLAYER_yEND_POINT
      rw [if_pos (by omega), if_pos (by omega)]
      have e1 : u16 ((n : Int) - player.y) = n - player.y := by unfold u16; omega
      rw [e1]
    rw [fill_player_trace_single _ _ _ hcalls]
    simp only
    rw [mem_paintedWith_fill_inside px py hx (by omega)]
    omega

/-- C7, as stated, fails: the sprite `{x:10, y:50, w:20, h:20}` lies inside
the travel band and on the panel, the new row 100 keeps it on the panel, and
the fill writes the position `(10, 80)`, which is outside the previous
rectangle. -/
theorem fill_player_trace_not_exactly_vacated :
    (30 ≤ 50 ∧ 50 + 20 ≤ 210 ∧ 10 + 20 ≤ 320 ∧ (0 : Int) ≤ 100 ∧ (100 : Int) + 20 ≤ 240) ∧
    (10, 80) ∈ paintedWith (fill_player_trace { x := 10, y := 50, w := 20, h := 20 } 100)
      BACKGROUND ∧
    ¬ (prevRect { x := 10, y := 50, w := 20, h := 20 }).contains 10 80 ∧
    ¬ erasesExactlyVacated { x := 10, y := 50, w := 20, h := 20 } 100 := by
  have hmem : (10, 80) ∈
      paintedWith (fill_player_trace { x := 10, y := 50, w := 20, h := 20 } 100) BACKGROUND := by
    have := (mem_paintedWith_fill_player_trace { x := 10, y := 50, w := 20, h := 20 } 100 10 80
      (by decide) (by decide) (by decide) (by decide)).mpr (by decide)
    exact this
  have hout : ¬ (prevRect { x := 10, y := 50, w := 20, h := 20 }).contains 10 80 := by decide
  exact ⟨by decide, hmem, hout, fun hE => hout ((hE 10 80).mp hmem).1⟩

/-- C7, amended: for a sprite whose previous rectangle is inside the travel
band and on the panel and a new row `y_pos ≥ 0` with `y_pos + h ≤ 240`,
`fill_player_trace` writes with the background colour exactly the columns of
the sprite in the rows from the old top edge to the new top edge (on the way
down) or from the new bottom edge to the old bottom edge (on the way up).
Hence it writes no position of the new rectangle and it writes every position
of the previous rectangle that the new one leaves free; when the move is no
longer than the sprite is high the positions written are exactly those; for a
longer move of a sprite of positive width it also writes rows between the two
rectangles, outside the previous rectangle, and so not exactly the vacated
region. -/
theorem fill_player_trace_erases_vacated (player : Player) (y_pos : Int)
    (hlo : player.y ≥ 30) (hhi : player.y + player.h ≤ 210)
    (hx : player.x + player.w ≤ 320) (h0 : 0 ≤ y_pos) (h1 : y_pos + player.h ≤ 240) :
    (∀ px py : Nat, (px, py) ∈ paintedWith (fill_player_trace player y_pos) BACKGROUND ↔
      (player.x ≤ px ∧ px < player.x + player.w ∧
        (((player.y : Int) ≤ py ∧ (py : Int) < y_pos) ∨
          (y_pos + player.h ≤ py ∧ py < player.y + player.h)))) ∧
    (∀ px py : Nat, (px, py) ∈ paintedWith (fill_player_trace player y_pos) BACKGROUND →
      ¬ (newRect player y_pos).contains px py) ∧
    (∀ px py : Nat, (prevRect player).contains px py → ¬ (newRect player y_pos).contains px py →
      (px, py) ∈ paintedWith (fill_player_trace player y_pos) BACKGROUND) ∧
    (y_pos ≤ player.y + player.h → (player.y : Int) ≤ y_pos + player.h →
      erasesExactlyVacated player y_pos) ∧
    (0 < player.w → ((player.y : Int) + player.h < y_pos ∨ y_pos + player.h < player.y) →
      (∃ px py : Nat, (px, py) ∈ paintedWith (fill_player_trace player y_pos) BACKGROUND ∧
        ¬ (prevRect player).contains px py) ∧
      ¬ erasesExactlyVacated player y_pos) := by
  obtain ⟨n, rfl⟩ := Int.eq_ofNat_of_zero_le h0
  have hn : n + player.h ≤ 240 := by omega
  have hmem := fun px py => mem_paintedWith_fill_player_trace player n px py hlo hhi hx hn
  refine ⟨?_, ?_, ?_, ?_, ?_⟩
  · intro px py
    rw [hmem px py]
    omega
  · intro px py hp
    rw [hmem px py] at hp
    simp only [newRect, Rect.contains, Int.toNat_ofNat]
    omega
  · intro px py hprev hnew
    rw [hmem px py]
    simp only [newRect, prevRect, Rect.contains, Int.toNat_ofNat] at hprev hnew
    omega
  · intro hd hu px py
    rw [hmem px py]
    simp only [newRect, prevRect, Rect.contains, Int.toNat_ofNat]
    omega
  · intro hw hlong
    have hex : ∃ px py : Nat,
        (px, py) ∈ paintedWith (fill_player_trace player (n : Int)) BACKGROUND ∧
        ¬ (prevRect player).contains px py := by
      rcases hlong with hdown | hup
      · refine ⟨player.x, player.y + player.h, (hmem _ _).mpr (by omega), ?_⟩
        simp only [prevRect, Rect.contains]
        omega
      · refine ⟨player.x, n + player.h, (hmem _ _).mpr (by omega), ?_⟩
        simp only [prevRect, Rect.contains]
        omega
    refine ⟨hex, ?_⟩
    obtain ⟨px, py, hp, hout⟩ := hex
    exact fun hE => hout ((hE px py).mp hp).1

/-- C7, amended, for a sprite of 20 by 20 pixels at row 50.  Moved to row 60:
row 59 is written, row 60 is not.  Moved to row 100: the vacated position
`(10, 69)` is written, and so is `(10, 80)`, between the two rectangles. -/
theorem fill_player_trace_erases_vacated_witness :
    (10, 59) ∈ paintedWith (fill_player_trace { x := 10, y := 50, w := 20, h := 20 } 60)
      BACKGROUND ∧
    (10, 60) ∉ paintedWith (fill_player_trace { x := 10, y := 50, w := 20, h := 20 } 60)
      BACKGROUND ∧
    (10, 69) ∈ paintedWith (fill_player_trace { x := 10, y := 50, w := 20, h := 20 } 100)
      BACKGROUND ∧
    (10, 80) ∈ paintedWith (fill_player_trace { x := 10, y := 50, w := 20, h := 20 } 100)
      BACKGROUND ∧
    ¬ erasesExactlyVacated { x := 10, y := 50, w := 20, h := 20 } 100 := by
  have short := fill_player_trace_erases_vacated { x := 10, y := 50, w := 20, h := 20 } 60
    (by decide) (by decide) (by decide) (by decide) (by decide)
  have long := fill_player_trace_erases_vacated { x := 10, y := 50, w := 20, h := 20 } 100
    (by decide) (by decide) (by decide) (by decide) (by decide)
  have hE := short.2.2.2.1 (by decide) (by decide)
  exact ⟨(hE 10 59).mpr (by decide), fun hmem => short.2.1 10 60 hmem (by decide),
    long.2.2.1 10 69 (by decide) (by decide), (long.1 10 80).mpr (by decide),
    (long.2.2.2.2 (by decide) (by decide)).2⟩

/-! ## Strings -/

theorem write_char_ne_nil (x y ch : Nat) (font : FontDef) (color bgcolor : Nat) :
    ili9341_write_char x y ch font color bgcolor ≠ [] := by
  simp [ili9341_write_char, ili9341_set_address_window, ili9341_write_cmd]

/-- C9, as stated, fails: with the 16 by 26 font the cursor `x = 310` exceeds
`320 - 16`, the character `A` is not a space, and yet nothing is drawn from
`(310, 220)`, because the new line at row 246 is dropped; a glyph at
`(0, 246)` would have produced a trace. -/
theorem write_string_wrap_not_always_drawn :
    320 - font16x26.width < 310 ∧ (65 : Nat) ≠ 32 ∧
    ili9341_write_string 310 220 [65] font16x26 0xFFFF 0x0000 = [] ∧
    ili9341_write_char 0 (220 + font16x26.height) 65 font16x26 0xFFFF 0x0000 ≠ [] :=
  ⟨by decide, by decide, by decide, write_char_ne_nil _ _ _ _ _ _⟩

/-- The wrap of `ili9341_write_string` onto a line above the bottom edge. -/
theorem write_string_wrap_fit (x y c : Nat) (rest : List Nat) (font : FontDef)
    (color bgcolor : Nat) (hc : c ≠ 0) (hwrap : 320 < x + font.width)
    (hfit : y + font.height + font.height < 240) :
    (c ≠ 32 →
      ili9341_write_string x y (c :: rest) font color bgcolor =
        ili9341_write_char 0 (y + font.height) c font color bgcolor ++
        ili9341_write_string (font.width % 65536) (y + font.height) rest font color bgcolor) ∧
    (c = 32 →
      ili9341_write_string x y (c :: rest) font color bgcolor =
        ili9341_write_string 0 (y + font.height) rest font color bgcolor) ∧
    (c = 32 → font.width < 320 → ∀ (c2 : Nat) (rest2 : List Nat), rest = c2 :: rest2 → c2 ≠ 0 →
      ili9341_write_string x y (c :: rest) font color bgcolor =
        ili9341_write_char 0 (y + font.height) c2 font color bgcolor ++
        ili9341_write_string (font.width % 65536) (y + font.height) rest2 font color bgcolor) := by
  have hy : u16 ((y : Int) + font.height) = y + font.height := by unfold u16; omega
  have hw : u16 ((0 : Int) + font.width) = font.width % 65536 := by unfold u16; omega
  have hcond1 : (x : Int) + font.width ≥ (ILI9341_WIDTH : Int) := by
    unfold ILI9341_WIDTH; omega
  have hcond2 : ¬ ((u16 ((y : Int) + font.height) : Int) + font.height ≥
      (ILI9341_HEIGHT : Int)) := by
    rw [hy]; unfold ILI9341_HEIGHT; omega
  have hspace : c = 32 →
      ili9341_write_string x y (c :: rest) font color bgcolor =
        ili9341_write_string 0 (y + font.height) rest font color bgcolor := by
    intro h32
    rw [ili9341_write_string, if_neg hc, if_pos hcond1, if_neg hcond2, if_pos h32, hy]
  refine ⟨?_, hspace, ?_⟩
  · intro h32
    rw [ili9341_write_string, if_neg hc, if_pos hcond1, if_neg hcond2, if_neg h32, hy, hw]
  · intro h32 hgw c2 rest2 hrest hc2
    rw [hspace h32, hrest, ili9341_write_string, if_neg hc2,
      if_neg (by unfold ILI9341_WIDTH; omega)]
    have hw0 : u16 (((0 : Nat) : Int) + font.width) = font.width % 65536 := by unfold u16; omega
    rw [hw0]

/-- The wrap of `ili9341_write_string` onto a line that passes the bottom
edge: the loop is left and nothing is emitted. -/
theorem write_string_wrap_drop (x y c : Nat) (rest : List Nat) (font : FontDef)
    (color bgcolor : Nat) (hwrap : 320 ≤ x + font.width)
    (hrow : y + font.height < 65536) (hover : 240 ≤ y + font.height + font.height) :
    ili9341_write_string x y (c :: rest) font color bgcolor = [] := by
  have hy : u16 ((y : Int) + font.height) = y + font.height := by unfold u16; omega
  have hcond1 : (x : Int) + font.width ≥ (ILI9341_WIDTH : Int) := by
    unfold ILI9341_WIDTH; omega
  have hcond2 : (u16 ((y : Int) + font.height) : Int) + font.height ≥
      (ILI9341_HEIGHT : Int) := by
    rw [hy]; unfold ILI9341_HEIGHT; omega
  rw [ili9341_write_string]
  by_cases hc : c = 0
  · rw [if_pos hc]
  · rw [if_neg hc, if_pos hcond1, if_pos hcond2]

/-- C9, amended: when the cursor `x` of the next character exceeds
`320 - glyph_width`, the cursor wraps to `x = 0`, `y + glyph_height` before
the character is handled.  If the new line lies above the bottom edge
(`y + 2 * glyph_height < 240`), a character other than a space is drawn at
`(0, y + glyph_height)` and the string goes on one glyph to the right; a space
is consumed without any event, and, for a glyph narrower than the panel, the
character after it is drawn at `(0, y + glyph_height)`.  If the new line would
pass the bottom edge (`y + 2 * glyph_height > 240`, the row `y + glyph_height`
being a 16-bit value), nothing more is drawn. -/
theorem write_string_wrap (x y c : Nat) (rest : List Nat) (font : FontDef)
    (color bgcolor : Nat) (hc : c ≠ 0) (hwrap : 320 < x + font.width) :
    (y + font.height + font.height < 240 → c ≠ 32 →
      ili9341_write_string x y (c :: rest) font color bgcolor =
        ili9341_write_char 0 (y + font.height) c font color bgcolor ++
        ili9341_write_string (font.width % 65536) (y + font.height) rest font color bgcolor) ∧
    (y + font.height + font.height < 240 → c = 32 →
      ili9341_write_string x y (c :: rest) font color bgcolor =
        ili9341_write_string 0 (y + font.height) rest font color bgcolor) ∧
    (y + font.height + font.height < 240 → c = 32 → font.width < 320 →
      ∀ (c2 : Nat) (rest2 : List Nat), rest = c2 :: rest2 → c2 ≠ 0 →
      ili9341_write_string x y (c :: rest) font color bgcolor =
        ili9341_write_char 0 (y + font.height) c2 font color bgcolor ++
        ili9341_write_string (font.width % 65536) (y + font.height) rest2 font color bgcolor) ∧
    (y + font.height < 65536 → 240 < y + font.height + font.height →
      ili9341_write_string x y (c :: rest) font color bgcolor = []) :=
  ⟨fun hfit => (write_string_wrap_fit x y c rest font color bgcolor hc hwrap hfit).1,
    fun hfit => (write_string_wrap_fit x y c rest font color bgcolor hc hwrap hfit).2.1,
    fun hfit => (write_string_wrap_fit x y c rest font color bgcolor hc hwrap hfit).2.2,
    fun hrow hover => write_string_wrap_drop x y c rest font color bgcolor
      (Nat.le_of_lt hwrap) hrow (Nat.le_of_lt hover)⟩

/-- C9, amended.  With a font of one row and one column, from `(320, 5)` the
string `" B"` draws `B` at `(0, 6)` and nothing else, and `"AB"` draws `A` at
`(0, 6)` and `B` at `(1, 6)`; with the 16 by 26 font, from `(310, 220)` the
new line would start at row 246 and `"AB"` draws nothing. -/
theorem write_string_wrap_witness :
    ili9341_write_string 320 5 [32, 66] font1x1 0xFFFF 0x0000 =
      ili9341_write_char 0 6 66 font1x1 0xFFFF 0x0000 ∧
    ili9341_write_string 320 5 [65, 66] font1x1 0xFFFF 0x0000 =
      ili9341_write_char 0 6 65 font1x1 0xFFFF 0x0000 ++
      ili9341_write_char 1 6 66 font1x1 0xFFFF 0x0000 ∧
    ili9341_write_string 310 220 [65, 66] font16x26 0xFFFF 0x0000 = [] := by
  have k1 := (write_string_wrap 320 5 32 [66] font1x1 0xFFFF 0x0000
    (by decide) (by decide)).2.2.1 (by decide) rfl (by decide) 66 [] rfl (by decide)
  have k2 := (write_string_wrap 320 5 65 [66] font1x1 0xFFFF 0x0000
    (by decide) (by decide)).1 (by decide) (by decide)
  have k3 := (write_string_wrap 310 220 65 [66] font16x26 0xFFFF 0x0000
    (by decide) (by decide)).2.2.2 (by decide) (by decide)
  refine ⟨?_, ?_, k3⟩
  · rw [k1]; decide
  · rw [k2]; decide

/-- C10 on the code: with the 16 by 26 font a wrap from row 188 opens a line
at row 214 that ends on the last panel row (`214 + 26 = 240`), and the
character is dropped all the same; one row higher it is drawn. -/
theorem write_string_drops_last_fitting_line :
    (320 ≤ 310 + font16x26.width ∧ (188 + font16x26.height) + font16x26.height ≤ 240) ∧
    ili9341_write_string 310 188 [65] font16x26 0xFFFF 0x0000 = [] ∧
    ili9341_write_string 310 187 [65] font16x26 0xFFFF 0x0000 =
      ili9341_write_char 0 213 65 font16x26 0xFFFF 0x0000 := by
  refine ⟨by decide, by decide, ?_⟩
  rw [ili9341_write_string, if_neg (by decide), if_pos (by decide), if_neg (by decide),
    if_neg (by decide), ili9341_write_string, List.append_nil]
  rfl

/-! ## Glyphs -/

/-- The bit test of `ili9341_write_char` for a column `j ≤ 15`: bit 15 of the
32-bit value `b << j` is bit `15 - j` of `b`. -/
theorem shifted_bit_test (b j : Nat) (hj : j ≤ 15) :
    (((b <<< j) % 4294967296) &&& 0x8000 ≠ 0) ↔ b.testBit (15 - j) = true := by
  have hbit : (((b <<< j) % 4294967296) &&& 0x8000).testBit 15 = b.testBit (15 - j) := by
    have e32 : (4294967296 : Nat) = 2 ^ 32 := by norm_num
    have e15 : (0x8000 : Nat) = 2 ^ 15 := by norm_num
    rw [e32, e15, Nat.testBit_and, Nat.testBit_mod_two_pow, Nat.testBit_shiftLeft,
      Nat.testBit_two_pow_self]
    simp [hj]
  constructor
  · intro hne
    obtain ⟨k, hk⟩ := Nat.ne_zero_implies_bit_true hne
    have hk15 : k = 15 := by
      have e15 : (0x8000 : Nat) = 2 ^ 15 := by norm_num
      rw [e15, Nat.testBit_and, Nat.testBit_two_pow] at hk
      simp only [Bool.and_eq_true, decide_eq_true_eq] at hk
      exact hk.2.symm
    rw [hk15, hbit] at hk
    exact hk
  · intro hset hzero
    rw [← hbit, hzero] at hset
    simp at hset

theorem write_char_cols_eq (b color bgcolor : Nat) (hc : color < 65536)
    (hb : bgcolor < 65536) (n : Nat) :
    ∀ j, j + n ≤ 16 → write_char_cols b color bgcolor n j =
      ((List.range n).map (fun k =>
        pixelTransaction (if b.testBit (15 - (j + k)) then color else bgcolor))).flatten := by
  induction n with
  | zero => intro j _; rfl
  | succ n ih =>
    intro j hj
    rw [write_char_cols, ih (j + 1) (by omega), List.range_succ_eq_map, List.map_cons,
      List.map_map, List.flatten_cons]
    congr 1
    · unfold pixelTransaction
      by_cases hbit : b.testBit (15 - j) = true
      · have hne : ((b <<< j) % 4294967296) &&& 0x8000 ≠ 0 :=
          (shifted_bit_test b j (by omega)).mpr hbit
        simp only [Nat.add_zero, if_pos hne, if_pos hbit, u8_shiftRight_id hc, u8_and_id]
      · have hne : ¬ (((b <<< j) % 4294967296) &&& 0x8000 ≠ 0) := fun h =>
          hbit ((shifted_bit_test b j (by omega)).mp h)
        simp only [Nat.add_zero, if_neg hne, if_neg hbit, u8_shiftRight_id hb, u8_and_id]
    · congr 1
      apply List.map_congr_left
      intro k _
      simp only [Function.comp, Nat.succ_eq_add_one]
      rw [show j + 1 + k = j + (k + 1) by omega]

theorem write_char_rows_eq (font : FontDef) (ch color bgcolor : Nat) (hch : 32 ≤ ch)
    (hw : font.width ≤ 16) (hc : color < 65536) (hb : bgcolor < 65536) (n : Nat) :
    ∀ i, write_char_rows font ch color bgcolor n i =
      ((List.range n).map (fun r =>
        ((List.range font.width).map (fun j =>
          pixelTransaction (glyphPixel font ch color bgcolor (i + r) j))).flatten)).flatten := by
  induction n with
  | zero => intro i; rfl
  | succ n ih =>
    intro i
    have hidx : ((ch : Int) - 32) * font.height + i =
        (((ch - 32) * font.height + i : Nat) : Int) := by
      push_cast [Nat.cast_sub hch]
      ring
    rw [write_char_rows, ih (i + 1), List.range_succ_eq_map, List.map_cons, List.map_map,
      List.flatten_cons, write_char_cols_eq _ _ _ hc hb _ 0 (by omega), hidx]
    congr 1
    · simp only [glyphPixel, Nat.zero_add, Nat.add_zero]
    · congr 1
      apply List.map_congr_left
      intro r _
      simp only [Function.comp, Nat.succ_eq_add_one]
      rw [show i + 1 + r = i + (r + 1) by omega]

/-- Rows of equal length laid end to end: entry `k` is column `k % w` of row
`k / w`. -/
theorem flatten_rows_eq_range {α : Type} (f : Nat → Nat → α) (w : Nat) :
    ∀ h, ((List.range h).map (fun i => (List.range w).map (fun j => f i j))).flatten =
      (List.range (h * w)).map (fun k => f (k / w) (k % w)) := by
  intro h
  induction h with
  | zero => simp
  | succ h ih =>
    rw [List.range_succ, List.map_append, List.flatten_append, ih,
      show (h + 1) * w = h * w + w by ring, List.range_add, List.map_append]
    congr 1
    simp only [List.map_cons, List.map_nil, List.flatten_cons, List.flatten_nil,
      List.append_nil, List.map_map]
    apply List.map_congr_left
    intro j hj
    have hjw : j < w := List.mem_range.mp hj
    have hw : 0 < w := by omega
    simp only [Function.comp]
    rw [Nat.mul_comm h w, Nat.mul_add_div hw, Nat.mul_add_mod, Nat.div_eq_of_lt hjw,
      Nat.mod_eq_of_lt hjw, Nat.add_zero]

/-- The trace of `ili9341_write_char` for a printable character and a glyph
of at most 16 columns. -/
theorem write_char_trace (x y ch : Nat) (font : FontDef) (color bgcolor : Nat)
    (hch : 32 ≤ ch) (hw : font.width ≤ 16) (hc : color < 65536) (hb : bgcolor < 65536) :
    ili9341_write_char x y ch font color bgcolor =
      ili9341_set_address_window x (u16 ((x : Int) + font.width - 1)) y
        (u16 ((y : Int) + font.height - 1)) ++
      ((List.range (font.width * font.height)).map (fun k =>
        pixelTransaction
          (glyphPixel font ch color bgcolor (k / font.width) (k % font.width)))).flatten := by
  unfold ili9341_write_char
  rw [write_char_rows_eq font ch color bgcolor hch hw hc hb font.height 0]
  congr 1
  have hflat := flatten_rows_eq_range
    (fun i j => pixelTransaction (glyphPixel font ch color bgcolor i j)) font.width font.height
  have hnest : ((List.range font.height).map (fun r =>
      ((List.range font.width).map (fun j =>
        pixelTransaction (glyphPixel font ch color bgcolor r j))).flatten)) =
      ((List.range font.height).map (fun r =>
        (List.range font.width).map (fun j =>
          pixelTransaction (glyphPixel font ch color bgcolor r j)))).map List.flatten := by
    rw [List.map_map]
    rfl
  simp only [Nat.zero_add]
  rw [hnest, ← List.flatten_flatten, hflat, Nat.mul_comm font.width font.height]

theorem blank_glyph_pixels (x y ch color : Nat) (hch : 32 ≤ ch) (hc : color < 65536) :
    ili9341_write_char x y ch font16x26 color 0 =
      ili9341_set_address_window x (u16 ((x : Int) + 16 - 1)) y (u16 ((y : Int) + 26 - 1)) ++
      ((List.range 416).map (fun _ => pixelTransaction 0)).flatten := by
  rw [write_char_trace x y ch font16x26 color 0 hch (by decide) hc (by decide)]
  have hblank : ∀ i j : Nat, glyphPixel font16x26 ch color 0 i j = 0 := by
    intro i j
    simp [glyphPixel, font16x26]
  simp only [hblank]
  rfl

/-- C12 on the code: `ili9341_write_char` has no test of the origin.  Called
at `(320, 0)` with the 16 by 26 font it sets the window `(320, 335, 0, 25)`
and sends all 416 pixels; called at `(310, 230)`, inside the panel, it sets
the window `(310, 325, 230, 255)`, past column 319 and row 239. -/
theorem write_char_has_no_clamp :
    ili9341_write_char 320 0 65 font16x26 0xFFFF 0x0000 =
      ili9341_set_address_window 320 335 0 25 ++
      ((List.range 416).map (fun _ => pixelTransaction 0)).flatten ∧
    ili9341_write_char 320 0 65 font16x26 0xFFFF 0x0000 ≠ [] ∧
    ili9341_draw_pixel 320 0 0xFFFF = [] ∧
    ili9341_write_char 310 230 65 font16x26 0xFFFF 0x0000 =
      ili9341_set_address_window 310 325 230 255 ++
      ((List.range 416).map (fun _ => pixelTransaction 0)).flatten ∧
    319 < 325 ∧ 239 < 255 := by
  refine ⟨?_, write_char_ne_nil _ _ _ _ _ _, by decide, ?_, by decide, by decide⟩
  · rw [blank_glyph_pixels 320 0 65 0xFFFF (by decide) (by decide)]
    rfl
  · rw [blank_glyph_pixels 310 230 65 0xFFFF (by decide) (by decide)]
    rfl

/-! ## Empty rectangles -/

/-- C13, as stated, fails: with the origin `(10, 20)` on the panel and
`w = 0`, `ili9341_fill_rect` and `ili9341_draw_image` still send the three
address-window commands, for the window `(10, 9, 20, 24)`, and open and close
one data bracket. -/
theorem zero_size_emits_window :
    (10 < 320 ∧ 20 < 240) ∧
    ili9341_fill_rect 10 0 20 5 0x9F5E =
      ili9341_set_address_window 10 9 20 24 ++
      [Event.gpio Pin.cs false, Event.gpio Pin.dc true, Event.gpio Pin.cs true] ∧
    ili9341_draw_image 10 0 20 5 (fun i => i) =
      ili9341_set_address_window 10 9 20 24 ++
      [Event.gpio Pin.cs false, Event.gpio Pin.dc true, Event.gpio Pin.cs true] ∧
    ili9341_fill_rect 10 0 20 5 0x9F5E ≠ [] ∧
    ili9341_draw_image 10 0 20 5 (fun i => i) ≠ [] := by
  refine ⟨by decide, by decide, by decide, by decide, by decide⟩

/-- C13, amended: with the origin on the panel and `w = 0` or `h = 0`,
`ili9341_fill_rect` and `ili9341_draw_image` draw nothing: after the
address-window setup they open and close the data bracket without a single
pixel transfer, and no panel pixel is written. -/
theorem zero_size_draws_nothing (x w y h color : Nat) (data : Nat → Nat)
    (w' h' : Nat) (hx : x < 320) (hy : y < 240)
    (hw' : w' = if x + w > 320 then 320 - x else w)
    (hh' : h' = if y + h > 240 then 240 - y else h)
    (hz : w = 0 ∨ h = 0) :
    ili9341_fill_rect x w y h color =
      ili9341_set_address_window x (u16 ((x : Int) + w' - 1)) y (u16 ((y : Int) + h' - 1)) ++
      [Event.gpio Pin.cs false, Event.gpio Pin.dc true, Event.gpio Pin.cs true] ∧
    ili9341_draw_image x w y h data =
      ili9341_set_address_window x (u16 ((x : Int) + w' - 1)) y (u16 ((y : Int) + h' - 1)) ++
      [Event.gpio Pin.cs false, Event.gpio Pin.dc true, Event.gpio Pin.cs true] ∧
    paintedPixels (ili9341_fill_rect x w y h color) = [] ∧
    paintedPixels (ili9341_draw_image x w y h data) = [] := by
  have hcw : clampW x w = w' := by rw [hw']; exact clampW_eq w hx
  have hch : clampH y h = h' := by rw [hh']; exact clampH_eq h hy
  have hprod : w' * h' = 0 := by
    rcases hz with h0 | h0
    · have : w' = 0 := by rw [hw', h0, if_neg (by omega)]
      rw [this, Nat.zero_mul]
    · have : h' = 0 := by rw [hh', h0, if_neg (by omega)]
      rw [this, Nat.mul_zero]
  refine ⟨?_, ?_, ?_, ?_⟩
  · rw [fill_rect_on_panel w h color hx hy, hcw, hch, hprod]
    rfl
  · rw [draw_image_on_panel w h data hx hy, hcw, hch, hprod]
    rfl
  · unfold paintedPixels
    rw [run_fill_rect _ w h color hx hy, hcw, hch, hprod]
    rfl
  · unfold paintedPixels
    rw [run_draw_image _ w h data hx hy, hcw, hch, hprod]
    rfl

/-- C13, amended, for a rectangle of width 0 and height 5 at `(10, 20)`. -/
theorem zero_size_draws_nothing_witness :
    paintedPixels (ili9341_fill_rect 10 0 20 5 0x9F5E) = [] ∧
    paintedPixels (ili9341_draw_image 10 0 20 5 (fun i => i)) = [] :=
  (zero_size_draws_nothing 10 0 20 5 0x9F5E (fun i => i) 0 5 (by decide) (by decide)
    (by decide) (by decide) (Or.inl rfl)).2.2

/-! ## Orientation at start-up -/

/-- C14 on the code: `bsp_lcd_init` passes the macro `LANDSCAPE`, which is 0,
while `ili9341_set_orientation` compares with `ORIENTATION_LANDSCAPE`, which
is 1; the call takes the portrait branch, and the last Memory-Access-Control
payload of `bsp_lcd_init` is `MADCTL_MX | MADCTL_BGR = 0x48`, not `0xA8`. -/
theorem bsp_lcd_init_selects_portrait :
    madctlWrites bsp_lcd_init = [[0x28], [0x48]] ∧
    madctlWrites (ili9341_set_orientation ORIENTATION_LANDSCAPE) = [[0xA8]] ∧
    MADCTL_MV ||| MADCTL_MY ||| MADCTL_BGR = 0xA8 ∧
    LANDSCAPE ≠ ORIENTATION_LANDSCAPE ∧
    ili9341_set_orientation LANDSCAPE = ili9341_set_orientation ORIENTATION_PORTRAIT ∧
    ili9341_set_orientation LANDSCAPE ≠ ili9341_set_orientation ORIENTATION_LANDSCAPE := by
  refine ⟨by decide, by decide, by decide, by decide, by decide, by decide⟩

/-! ## Background fill -/

/-- C16 on the code: an image of 4 columns and 2 rows with the pixels
`1, 2, 3, 4` and `5, 6, 7, 8`, drawn at `(318, 0)`, is cut to 2 columns; the
loop sends `data[0 .. 3]`, so the second panel row receives `3, 4`, the end of
the first image row, where the image has `data[1 * 4 + 0] = 5` and
`data[1 * 4 + 1] = 6`. -/
theorem draw_image_clipped_rows_shift :
    (318 < 320 ∧ 0 < 240 ∧ 318 + 4 > 320) ∧
    paintedPixels (ili9341_draw_image 318 4 0 2 (fun i => i + 1)) =
      [(318, 0, 1), (319, 0, 2), (318, 1, 3), (319, 1, 4)] ∧
    (fun i => i + 1) (1 * 4 + 0) = 5 ∧ (fun i => i + 1) (1 * 4 + 1) = 6 := by
  refine ⟨by decide, by decide, by decide, by decide⟩

end Ili9341
